import Mathlib

/-!
Shallow embedding of the access-control and audit core of the gc-py-backend
repository (src/app/services/permission_service.py, audit_service.py,
admin_user_service.py and src/app/core/validators.py), together with proofs
of the frozen claims about it.

Modelling conventions:
* Firestore collections are association lists from document id to document.
* Python dicts read back from the store are modelled as structures whose
  fields are `Option`-valued ("key absent" = `none`); where Python truthiness
  of a whole dict matters, a `hasOtherKeys` flag stands for the presence of
  keys that the core never reads (for instance the timestamp keys).
* `firestore.SERVER_TIMESTAMP` becomes an explicit `now : Nat` argument.
* Python `raise ValueError` becomes `Except.error`; every raise in the
  modelled functions occurs before any store write, exactly as in the source,
  so an error result leaves the modelled state unchanged.
-/

namespace GCPy

/-! ## Association-list primitives (Firestore document access and dict update) -/

def lookupA {α : Type} (k : String) : List (String × α) → Option α
  | [] => none
  | (k2, v) :: rest => if k2 = k then some v else lookupA k rest

def setA {α : Type} (k : String) (v : α) : List (String × α) → List (String × α)
  | [] => [(k, v)]
  | (k2, v2) :: rest => if k2 = k then (k, v) :: rest else (k2, v2) :: setA k v rest

def lookupN {α : Type} (k : Nat) : List (Nat × α) → Option α
  | [] => none
  | (k2, v) :: rest => if k2 = k then some v else lookupN k rest

theorem lookupA_setA_self {α : Type} (k : String) (v : α) :
    ∀ l : List (String × α), lookupA k (setA k v l) = some v := by
  intro l
  induction l with
  | nil => simp [setA, lookupA]
  | cons hd tl ih =>
    obtain ⟨k2, v2⟩ := hd
    by_cases h : k2 = k
    · simp [setA, h, lookupA]
    · simp [setA, h, lookupA, ih]

theorem lookupA_setA_other {α : Type} (k k2 : String) (v : α) (hne : k ≠ k2) :
    ∀ l : List (String × α), lookupA k2 (setA k v l) = lookupA k2 l := by
  intro l
  have hne2 : ¬k = k2 := hne
  induction l with
  | nil => simp [setA, lookupA, hne2]
  | cons hd tl ih =>
    obtain ⟨k3, v3⟩ := hd
    by_cases h : k3 = k
    · subst h
      simp [setA, lookupA, hne2, ih]
    · simp [setA, h, lookupA, ih]

/-! ## Permission documents (collection "gc-permissions")

A permission document is a Firestore dict.  The engine reads the key
"resources" (a map from resource name to a per-resource dict) and, inside a
resource entry, the key "actions" (a list of action names).  Python
truthiness of those dicts is significant in `check_permission`, so both
levels record whether further (unread) keys are present. -/

structure ResourceEntry where
  actions : Option (List String)
  hasOtherKeys : Bool
deriving Repr, DecidableEq

def ResourceEntry.truthy (e : ResourceEntry) : Bool :=
  e.actions.isSome || e.hasOtherKeys

structure PermDoc where
  role : Option String
  description : Option String
  resources : Option (List (String × ResourceEntry))
  hasOtherKeys : Bool
deriving Repr, DecidableEq

def PermDoc.truthy (d : PermDoc) : Bool :=
  d.role.isSome || d.description.isSome || d.resources.isSome || d.hasOtherKeys

/-! ## PermissionService state and operations

`_permissions_cache` and `_cache_timestamp` are class-level mutable state of
`PermissionService`; together with the "gc-permissions" collection they form
the state threaded through the operations below. -/

structure PermState where
  store : List (String × PermDoc)
  cache : List (String × PermDoc)
  cacheTimestamp : Option Nat
deriving Repr, DecidableEq

def cacheTtlSeconds : Nat := 300

/-- Embeds `PermissionService._is_cache_valid`. -/
def isCacheValid (st : PermState) (now : Nat) : Bool :=
  match st.cacheTimestamp with
  | none => false
  | some t => now - t < cacheTtlSeconds

/-- Embeds `PermissionService.get_role_permissions`: cache hit when the cache
is valid and holds the role; otherwise fetch from the store, insert into the
cache and initialize the shared timestamp only when it is currently unset. -/
def getRolePermissions (st : PermState) (role : String) (now : Nat) :
    Option PermDoc × PermState :=
  if isCacheValid st now ∧ (lookupA role st.cache).isSome then
    (lookupA role st.cache, st)
  else
    match lookupA role st.store with
    | some doc =>
      (some doc,
        { st with
          cache := setA role doc st.cache
          cacheTimestamp :=
            match st.cacheTimestamp with
            | none => some now
            | some t => some t })
    | none => (none, st)

/-- The pure decision core of `PermissionService.check_permission`, applied to
the document returned by `get_role_permissions` (`not permissions`,
`.get("resources", {}).get(resource, {})`, `if not resource_perms`,
`.get("actions", [])`, membership-or-wildcard). -/
def checkPermissionDoc (perms : Option PermDoc) (resource action : String) : Bool :=
  match perms with
  | none => false
  | some d =>
    if !d.truthy then false
    else
      match lookupA resource (d.resources.getD []) with
      | none => false
      | some entry =>
        if !entry.truthy then false
        else
          let allowed := entry.actions.getD []
          decide (action ∈ allowed) || decide ("*" ∈ allowed)

/-- Embeds `PermissionService.check_permission`. -/
def checkPermission (st : PermState) (role resource action : String) (now : Nat) :
    Bool × PermState :=
  let res := getRolePermissions st role now
  (checkPermissionDoc res.1 resource action, res.2)

/-- Embeds `PermissionService.invalidate_cache`. -/
def invalidateCache (st : PermState) : PermState :=
  { st with cache := [], cacheTimestamp := none }

/-- Embeds `PermissionService.create_role_permissions`: upsert the document
(`role`, `description`, `resources` plus the two timestamp keys, hence
`hasOtherKeys := true`) and invalidate the whole cache. -/
def createRolePermissions (st : PermState) (role description : String)
    (resources : List (String × ResourceEntry)) : PermDoc × PermState :=
  let doc : PermDoc :=
    { role := some role, description := some description,
      resources := some resources, hasOtherKeys := true }
  let st2 := { st with store := setA role doc st.store }
  (doc, invalidateCache st2)

/-! ## A step relation over the permission service, for reachability invariants -/

inductive POp where
  | getRole (role : String) (now : Nat)
  | check (role resource action : String) (now : Nat)
  | invalidate
  | create (role description : String) (resources : List (String × ResourceEntry))

def runOp (st : PermState) : POp → PermState
  | .getRole r now => (getRolePermissions st r now).2
  | .check r res act now => (checkPermission st r res act now).2
  | .invalidate => invalidateCache st
  | .create r d res => (createRolePermissions st r d res).2

def runOps (st : PermState) : List POp → PermState
  | [] => st
  | op :: ops => runOps (runOp st op) ops

/-- The process starts with an empty cache and an unset shared timestamp. -/
def permInit (store : List (String × PermDoc)) : PermState :=
  { store := store, cache := [], cacheTimestamp := none }

/-- Every cached document agrees with the store: this holds in every state the
service can actually reach, because cache entries are only ever copies of
freshly fetched store documents and every store write empties the cache. -/
def CacheConsistent (st : PermState) : Prop :=
  ∀ r d, lookupA r st.cache = some d → lookupA r st.store = some d

theorem cacheConsistent_runOp {st : PermState} (h : CacheConsistent st) (op : POp) :
    CacheConsistent (runOp st op) := by
  have key : ∀ role now, CacheConsistent (getRolePermissions st role now).2 := by
    intro role now r d
    unfold getRolePermissions
    by_cases hc : isCacheValid st now ∧ (lookupA role st.cache).isSome
    · simp only [if_pos hc]
      exact h r d
    · simp only [if_neg hc]
      cases hs : lookupA role st.store with
      | none => exact h r d
      | some doc =>
        simp only
        intro hcache
        by_cases hr : role = r
        · subst hr
          rw [lookupA_setA_self] at hcache
          cases hcache
          exact hs
        · rw [lookupA_setA_other role r doc hr] at hcache
          exact h r d hcache
  cases op with
  | getRole r now => exact key r now
  | check r res act now =>
    simpa [runOp, checkPermission] using key r now
  | invalidate =>
    intro r d hcache
    simp [runOp, invalidateCache, lookupA] at hcache
  | create r desc res =>
    intro r2 d hcache
    simp [runOp, createRolePermissions, invalidateCache, lookupA] at hcache

theorem cacheConsistent_runOps {st : PermState} (h : CacheConsistent st)
    (ops : List POp) : CacheConsistent (runOps st ops) := by
  induction ops generalizing st with
  | nil => exact h
  | cons op ops ih => exact ih (cacheConsistent_runOp h op)

theorem cacheConsistent_init (store : List (String × PermDoc)) :
    CacheConsistent (permInit store) := by
  intro r d hcache
  simp [permInit, lookupA] at hcache

/-- C1: `check_permission(role, resource, action)` returns true if and only if
the role's permission document (as returned by `get_role_permissions`) is
present, its resources map contains a non-empty (truthy) entry for the
resource, and that entry's action list contains the action or the wildcard
"*"; in every other case it returns false.  The function is total, so a
not-permitted outcome never raises. -/
theorem check_permission_granted_iff (st : PermState)
    (role resource action : String) (now : Nat) :
    (checkPermission st role resource action now).1 = true ↔
      ∃ d entry, (getRolePermissions st role now).1 = some d ∧
        lookupA resource (d.resources.getD []) = some entry ∧
        entry.truthy = true ∧
        (action ∈ entry.actions.getD [] ∨ "*" ∈ entry.actions.getD []) := by
  have hcp : (checkPermission st role resource action now).1
      = checkPermissionDoc (getRolePermissions st role now).1 resource action := rfl
  rw [hcp]
  cases hg : (getRolePermissions st role now).1 with
  | none => simp [checkPermissionDoc]
  | some d =>
    by_cases ht : d.truthy = true
    · cases hl : lookupA resource (d.resources.getD []) with
      | none => simp [checkPermissionDoc, ht, hl]
      | some entry =>
        by_cases he : entry.truthy = true
        · simp [checkPermissionDoc, ht, hl, he]
        · simp [checkPermissionDoc, ht, hl, he]
    · have ht2 : d.truthy = false := by
        revert ht; cases d.truthy <;> simp
      have hres : d.resources = none := by
        cases hr : d.resources with
        | none => rfl
        | some l => exact absurd (by simp [PermDoc.truthy, hr]) ht
      simp [checkPermissionDoc, ht2, hres, lookupA]

/-- C6: immediately after `create_role_permissions(role, ...)` the entire
cache is empty and the shared timestamp is reset; hence the next
`get_role_permissions` for any role reads the store, and a following
`check_permission` for the written role is decided by the newly written
document. -/
theorem create_role_permissions_invalidates (st : PermState)
    (role description : String) (resources : List (String × ResourceEntry))
    (r resource action : String) (now : Nat) :
    ((createRolePermissions st role description resources).2).cache = [] ∧
    ((createRolePermissions st role description resources).2).cacheTimestamp = none ∧
    (getRolePermissions (createRolePermissions st role description resources).2 r now).1
      = lookupA r ((createRolePermissions st role description resources).2).store ∧
    (checkPermission (createRolePermissions st role description resources).2
        role resource action now).1
      = checkPermissionDoc (some (createRolePermissions st role description resources).1)
          resource action := by
  set st2 := (createRolePermissions st role description resources).2 with hst2
  have hts : st2.cacheTimestamp = none := rfl
  have hcv : isCacheValid st2 now = false := by simp [isCacheValid, hts]
  have hget : ∀ rr : String, (getRolePermissions st2 rr now).1 = lookupA rr st2.store := by
    intro rr
    unfold getRolePermissions
    rw [if_neg (by simp [hcv])]
    cases h : lookupA rr st2.store <;> simp [h]
  have hstore : lookupA role st2.store
      = some (createRolePermissions st role description resources).1 := by
    show lookupA role (setA role _ st.store) = _
    exact lookupA_setA_self _ _ _
  refine ⟨rfl, hts, hget r, ?_⟩
  show checkPermissionDoc (getRolePermissions st2 role now).1 resource action = _
  rw [hget role, hstore]

/-- C10: the cache's shared timestamp is assigned by `get_role_permissions`
only when it is currently unset, and an existing timestamp survives every
read; once the TTL has elapsed, every read misses the cache and fetches from
the store, and inserting fresh documents never restores validity (the
timestamp stays at its old value); and on any state reachable from a fresh
process, a cache hit returns a document equal to the store document fetched
within the current cache window (strictly less than the 300-second TTL old). -/
theorem cache_timestamp_discipline :
    (∀ st : PermState, ∀ role : String, ∀ now t : Nat,
       st.cacheTimestamp = some t →
       ((getRolePermissions st role now).2).cacheTimestamp = some t) ∧
    (∀ st : PermState, ∀ role : String, ∀ now t : Nat,
       st.cacheTimestamp = some t → cacheTtlSeconds ≤ now - t →
       (getRolePermissions st role now).1 = lookupA role st.store ∧
       ((getRolePermissions st role now).2).cacheTimestamp = some t) ∧
    (∀ store : List (String × PermDoc), ∀ ops : List POp,
       CacheConsistent (runOps (permInit store) ops)) ∧
    (∀ st : PermState, ∀ role : String, ∀ now : Nat, ∀ d : PermDoc,
       CacheConsistent st → isCacheValid st now = true →
       lookupA role st.cache = some d →
       ∃ t, st.cacheTimestamp = some t ∧ now - t < cacheTtlSeconds ∧
         lookupA role st.store = some d ∧
         (getRolePermissions st role now).1 = some d) := by
  refine ⟨?_, ?_, ?_, ?_⟩
  · intro st role now t hts
    unfold getRolePermissions
    by_cases hc : isCacheValid st now ∧ (lookupA role st.cache).isSome
    · rw [if_pos hc]; exact hts
    · rw [if_neg hc]
      cases h : lookupA role st.store with
      | none => exact hts
      | some doc => simp [hts]
  · intro st role now t hts hexp
    have hcv : isCacheValid st now = false := by
      simp [isCacheValid, hts]
      omega
    unfold getRolePermissions
    rw [if_neg (by simp [hcv])]
    cases h : lookupA role st.store with
    | none => simp [h, hts]
    | some doc => simp [h, hts]
  · intro store ops
    exact cacheConsistent_runOps (cacheConsistent_init store) ops
  · intro st role now d hcons hvalid hcache
    obtain ⟨t, hts⟩ : ∃ t, st.cacheTimestamp = some t := by
      cases h : st.cacheTimestamp with
      | none => rw [isCacheValid, h] at hvalid; cases hvalid
      | some t => exact ⟨t, rfl⟩
    have hfresh : now - t < cacheTtlSeconds := by
      rw [isCacheValid, hts] at hvalid
      exact of_decide_eq_true hvalid
    refine ⟨t, hts, hfresh, hcons role d hcache, ?_⟩
    unfold getRolePermissions
    rw [if_pos ⟨hvalid, by rw [hcache]; rfl⟩]
    exact hcache

/-- A concrete permission document used to instantiate witnesses. -/
def permWitnessDoc : PermDoc :=
  { role := some "admin", description := some "all access",
    resources := some [("users", { actions := some ["*"], hasOtherKeys := true })],
    hasOtherKeys := true }

/-- A concrete state whose cache holds a copy of the store document. -/
def permWitnessState : PermState :=
  { store := [("admin", permWitnessDoc)],
    cache := [("admin", permWitnessDoc)],
    cacheTimestamp := some 100 }

/-- Witness for C10: a cache hit 100 seconds into the window returns the
store's document. -/
theorem cache_timestamp_discipline_witness :
    ∃ t, permWitnessState.cacheTimestamp = some t ∧
      (200 : Nat) - t < cacheTtlSeconds ∧
      lookupA "admin" permWitnessState.store = some permWitnessDoc ∧
      (getRolePermissions permWitnessState "admin" 200).1 = some permWitnessDoc :=
  cache_timestamp_discipline.2.2.2 permWitnessState "admin" 200 permWitnessDoc
    (fun _ _ h => h) (by decide) (by decide)

/-! ## Audit service (collection "gc-audit-logs")

An audit record mirrors the dict built by `AuditService.log_event`: the four
required keys plus optional keys that are present only when the supplied
value is Python-truthy.  Document ids are modelled as consecutive naturals
handed out by the store (`auditNext`); `SERVER_TIMESTAMP` is the `now`
argument. -/

structure ChangeEntry where
  old : Option String
  new : Option String
deriving Repr, DecidableEq

structure AuditRecord where
  eventType : String
  actorId : String
  actorEmail : String
  timestamp : Nat
  targetId : Option String
  targetEmail : Option String
  changes : Option (List (String × ChangeEntry))
  reason : Option String
  metadata : Option (List (String × String))
deriving Repr, DecidableEq

/-- Python truthiness of an optional string: `None` and `""` are falsy. -/
def truthyStr : Option String → Bool
  | none => false
  | some s => !(s == "")

/-- Python truthiness of an optional dict or list: `None` and empty are falsy. -/
def truthyList {α : Type} : Option (List α) → Bool
  | none => false
  | some l => !l.isEmpty

/-- The user documents of collection "gc-users" (the fields this core reads
and writes).  `mobile` distinguishes an absent key (`none`) from a key stored
as null (`some none`), because `update_user` writes null to clear it. -/
structure User where
  email : Option String
  firstName : Option String
  lastName : Option String
  mobile : Option (Option String)
  role : Option String
  status : Option String
  previousRole : Option String
  roleChangedAt : Option Nat
  roleChangedBy : Option String
  statusChangedAt : Option Nat
  statusChangedBy : Option String
  updatedAt : Option Nat
deriving Repr, DecidableEq

/-- The store state shared by the audit service and the admin user service. -/
structure SysState where
  users : List (String × User)
  audit : List (Nat × AuditRecord)
  auditNext : Nat
deriving Repr, DecidableEq

/-- Embeds `AuditService.log_event`: required fields always stored, each
optional field stored only when its value is truthy, record appended to the
collection under a fresh id which is returned. -/
def logEvent (st : SysState) (now : Nat) (eventType actorId actorEmail : String)
    (targetId targetEmail : Option String)
    (changes : Option (List (String × ChangeEntry)))
    (reason : Option String)
    (metadata : Option (List (String × String))) : Nat × SysState :=
  let entry : AuditRecord :=
    { eventType := eventType, actorId := actorId, actorEmail := actorEmail,
      timestamp := now,
      targetId := if truthyStr targetId then targetId else none,
      targetEmail := if truthyStr targetEmail then targetEmail else none,
      changes := if truthyList changes then changes else none,
      reason := if truthyStr reason then reason else none,
      metadata := if truthyList metadata then metadata else none }
  (st.auditNext,
    { st with
      audit := st.audit ++ [(st.auditNext, entry)],
      auditNext := st.auditNext + 1 })

/-- Embeds `AuditService.get_audit_log_by_id` (timestamp ISO conversion and
the attached "id" key are bookkeeping outside the modelled record). -/
def getAuditLogById (st : SysState) (logId : Nat) : Option AuditRecord :=
  lookupN logId st.audit

/-- Stable insertion into a timestamp-descending list: an element is placed
before the first strictly older element, matching the result of Python's
stable `sorted(key=timestamp, reverse=True)`. -/
def insertTsDesc (x : Nat × AuditRecord) :
    List (Nat × AuditRecord) → List (Nat × AuditRecord)
  | [] => [x]
  | y :: ys =>
    if y.2.timestamp ≤ x.2.timestamp then x :: y :: ys else y :: insertTsDesc x ys

def sortTsDesc : List (Nat × AuditRecord) → List (Nat × AuditRecord)
  | [] => []
  | x :: xs => insertTsDesc x (sortTsDesc xs)

/-- One conjunct of the Firestore query filters of `get_audit_logs`: a filter
is applied only when its argument is truthy (so `None` and `""` mean
"no filter"). -/
def filterMatch (o : Option String) (test : String → Bool) : Bool :=
  match o with
  | none => true
  | some s => if s == "" then true else test s

/-- Embeds `AuditService.get_audit_logs` for the filters this core uses
(event type, actor, target): conjunctive filters, timestamp-descending order,
`limit` clamped to 100, `offset` skipped first. -/
def getAuditLogs (st : SysState) (limit offset : Nat)
    (eventType actorId targetId : Option String) : List (Nat × AuditRecord) :=
  let lim := min limit 100
  let docs := st.audit.filter (fun p =>
    filterMatch eventType (fun s => p.2.eventType == s) &&
    filterMatch actorId (fun s => p.2.actorId == s) &&
    filterMatch targetId (fun s => p.2.targetId == some s))
  ((sortTsDesc docs).drop offset).take lim

/-- First-occurrence de-duplication by id, accumulating the ids already
seen. -/
def dedupFirstAux (seen : List Nat) :
    List (Nat × AuditRecord) → List (Nat × AuditRecord)
  | [] => []
  | x :: xs =>
    if seen.contains x.1 then dedupFirstAux seen xs
    else x :: dedupFirstAux (x.1 :: seen) xs

def dedupFirst (l : List (Nat × AuditRecord)) : List (Nat × AuditRecord) :=
  dedupFirstAux [] l

/-- The value the Python dict `{log["id"]: log for log in logs}` ends up
holding for a key: the last pair of the list with that id. -/
def lastValueFor (k : Nat) (l : List (Nat × AuditRecord)) (dflt : AuditRecord) :
    AuditRecord :=
  match l.reverse.find? (fun p => p.1 == k) with
  | some p => p.2
  | none => dflt

/-- Embeds the dict comprehension `{log["id"]: log for log in logs}.values()`:
keys in first-occurrence order, each carrying the last value assigned to
it. -/
def pyDictValues (l : List (Nat × AuditRecord)) : List (Nat × AuditRecord) :=
  (dedupFirst l).map (fun p => (p.1, lastValueFor p.1 l p.2))

/-- Embeds `AuditService.get_user_audit_history`: the actor-filtered and
target-filtered queries, concatenated, de-duplicated through a Python dict
keyed by id, re-sorted by timestamp descending, truncated to `limit`. -/
def getUserAuditHistory (st : SysState) (userId : String) (limit : Nat)
    (includeAsActor includeAsTarget : Bool) : List (Nat × AuditRecord) :=
  let actorLogs :=
    if includeAsActor then getAuditLogs st limit 0 none (some userId) none else []
  let targetLogs :=
    if includeAsTarget then getAuditLogs st limit 0 none none (some userId) else []
  let logs := actorLogs ++ targetLogs
  (sortTsDesc (pyDictValues logs)).take limit

/-- Modelled from the spec: `getUserAuditHistory(userId, limit, true, true)`
is the union of actor-matching and target-matching query results,
de-duplicated by event id, re-sorted by timestamp descending, truncated to
`limit`.  Stated independently of the implementation's dict-based merge to
compare the two. -/
def auditHistorySpec (st : SysState) (userId : String) (limit : Nat) :
    List (Nat × AuditRecord) :=
  (sortTsDesc (dedupFirst
    (getAuditLogs st limit 0 none (some userId) none ++
     getAuditLogs st limit 0 none none (some userId)))).take limit

theorem insertTsDesc_perm (x : Nat × AuditRecord) (l : List (Nat × AuditRecord)) :
    (insertTsDesc x l).Perm (x :: l) := by
  induction l with
  | nil => exact List.Perm.refl _
  | cons y ys ih =>
    unfold insertTsDesc
    by_cases h : y.2.timestamp ≤ x.2.timestamp
    · rw [if_pos h]
    · rw [if_neg h]
      exact (List.Perm.cons y ih).trans (List.Perm.swap x y ys)

theorem sortTsDesc_perm (l : List (Nat × AuditRecord)) : (sortTsDesc l).Perm l := by
  induction l with
  | nil => exact List.Perm.refl _
  | cons x xs ih =>
    exact (insertTsDesc_perm x (sortTsDesc xs)).trans (List.Perm.cons x ih)

theorem mem_sortTsDesc {a : Nat × AuditRecord} {l : List (Nat × AuditRecord)} :
    a ∈ sortTsDesc l ↔ a ∈ l :=
  (sortTsDesc_perm l).mem_iff

theorem dedupFirstAux_subset {a : Nat × AuditRecord} :
    ∀ (l : List (Nat × AuditRecord)) (seen : List Nat),
      a ∈ dedupFirstAux seen l → a ∈ l := by
  intro l
  induction l with
  | nil => intro seen h; exact absurd h (by simp [dedupFirstAux])
  | cons x xs ih =>
    intro seen h
    unfold dedupFirstAux at h
    by_cases hs : seen.contains x.1
    · rw [if_pos hs] at h
      exact List.mem_cons_of_mem x (ih seen h)
    · rw [if_neg hs] at h
      rcases List.mem_cons.mp h with h1 | h2
      · exact h1 ▸ List.mem_cons_self x xs
      · exact List.mem_cons_of_mem x (ih (x.1 :: seen) h2)

theorem dedupFirstAux_not_seen {a : Nat × AuditRecord} :
    ∀ (l : List (Nat × AuditRecord)) (seen : List Nat),
      a ∈ dedupFirstAux seen l → seen.contains a.1 = false := by
  intro l
  induction l with
  | nil => intro seen h; exact absurd h (by simp [dedupFirstAux])
  | cons x xs ih =>
    intro seen h
    unfold dedupFirstAux at h
    by_cases hs : seen.contains x.1
    · rw [if_pos hs] at h
      exact ih seen h
    · rw [if_neg hs] at h
      rcases List.mem_cons.mp h with h1 | h2
      · subst h1
        exact Bool.eq_false_iff.mpr hs
      · have := ih (x.1 :: seen) h2
        simp only [List.contains_cons, Bool.or_eq_false_iff] at this
        exact this.2

theorem dedupFirstAux_keys_nodup :
    ∀ (l : List (Nat × AuditRecord)) (seen : List Nat),
      ((dedupFirstAux seen l).map Prod.fst).Nodup := by
  intro l
  induction l with
  | nil => intro seen; simp [dedupFirstAux]
  | cons x xs ih =>
    intro seen
    unfold dedupFirstAux
    by_cases hs : seen.contains x.1
    · rw [if_pos hs]; exact ih seen
    · rw [if_neg hs]
      refine List.nodup_cons.mpr ⟨?_, ih (x.1 :: seen)⟩
      intro hmem
      obtain ⟨p, hp, hfst⟩ := List.mem_map.mp hmem
      have := dedupFirstAux_not_seen xs (x.1 :: seen) hp
      rw [hfst] at this
      simp [List.contains_cons] at this

theorem dedupFirst_keys_nodup (l : List (Nat × AuditRecord)) :
    ((dedupFirst l).map Prod.fst).Nodup :=
  dedupFirstAux_keys_nodup l []

theorem dedupFirst_subset {a : Nat × AuditRecord} {l : List (Nat × AuditRecord)}
    (h : a ∈ dedupFirst l) : a ∈ l :=
  dedupFirstAux_subset l [] h

/-- When every two list elements sharing an id are equal, the Python dict
merge reduces to first-occurrence de-duplication. -/
theorem pyDictValues_eq_dedupFirst {l : List (Nat × AuditRecord)}
    (h : ∀ p q : Nat × AuditRecord, p ∈ l → q ∈ l → p.1 = q.1 → p = q) :
    pyDictValues l = dedupFirst l := by
  unfold pyDictValues
  have hmap : ∀ p : Nat × AuditRecord, p ∈ dedupFirst l →
      (p.1, lastValueFor p.1 l p.2) = p := by
    intro p hp
    have hpl : p ∈ l := dedupFirst_subset hp
    unfold lastValueFor
    cases hf : l.reverse.find? (fun q => q.1 == p.1) with
    | none =>
      exfalso
      have : (l.reverse.find? (fun q => q.1 == p.1)).isSome := by
        rw [List.find?_isSome]
        exact ⟨p, List.mem_reverse.mpr hpl, by simp⟩
      rw [hf] at this
      cases this
    | some q =>
      have hq1 : q.1 = p.1 := by
        have := List.find?_some hf
        simpa using this
      have hql : q ∈ l := List.mem_reverse.mp (List.mem_of_find?_eq_some hf)
      have : q = p := h q p hql hpl hq1
      subst this
      rfl
  calc (dedupFirst l).map (fun p => (p.1, lastValueFor p.1 l p.2))
      = (dedupFirst l).map id := List.map_congr_left hmap
    _ = dedupFirst l := List.map_id _

theorem getAuditLogs_subset {a : Nat × AuditRecord} {st : SysState}
    {limit offset : Nat} {eventType actorId targetId : Option String}
    (h : a ∈ getAuditLogs st limit offset eventType actorId targetId) :
    a ∈ st.audit := by
  unfold getAuditLogs at h
  have h1 := (List.take_sublist _ _).subset h
  have h2 := (List.drop_sublist _ _).subset h1
  have h3 := mem_sortTsDesc.mp h2
  exact List.mem_of_mem_filter h3

/-- C7: with both inclusion flags set, `get_user_audit_history` equals the
union of the actor-matching and target-matching query results de-duplicated
by event id, re-sorted by timestamp descending and truncated to `limit`; in
particular every event id occurs at most once in the result.  The hypothesis
states that the audit collection assigns distinct document ids. -/
theorem get_user_audit_history_eq_spec (st : SysState) (userId : String)
    (limit : Nat) (hids : (st.audit.map Prod.fst).Nodup) :
    getUserAuditHistory st userId limit true true = auditHistorySpec st userId limit ∧
    ∀ i : Nat,
      ((getUserAuditHistory st userId limit true true).map Prod.fst).count i ≤ 1 := by
  have hinj := List.inj_on_of_nodup_map hids
  have hdups : ∀ p q : Nat × AuditRecord,
      p ∈ getAuditLogs st limit 0 none (some userId) none ++
            getAuditLogs st limit 0 none none (some userId) →
      q ∈ getAuditLogs st limit 0 none (some userId) none ++
            getAuditLogs st limit 0 none none (some userId) →
      p.1 = q.1 → p = q := by
    intro p q hp hq hpq
    have hp2 : p ∈ st.audit := by
      rcases List.mem_append.mp hp with h | h
      · exact getAuditLogs_subset h
      · exact getAuditLogs_subset h
    have hq2 : q ∈ st.audit := by
      rcases List.mem_append.mp hq with h | h
      · exact getAuditLogs_subset h
      · exact getAuditLogs_subset h
    exact hinj hp2 hq2 hpq
  have heq : getUserAuditHistory st userId limit true true
      = auditHistorySpec st userId limit := by
    unfold getUserAuditHistory auditHistorySpec
    simp only [if_pos trivial]
    rw [pyDictValues_eq_dedupFirst hdups]
  refine ⟨heq, ?_⟩
  rw [heq]
  have hnodup : ((auditHistorySpec st userId limit).map Prod.fst).Nodup := by
    unfold auditHistorySpec
    rw [List.map_take]
    refine List.Nodup.sublist (List.take_sublist _ _) ?_
    refine ((sortTsDesc_perm _).map Prod.fst).nodup_iff.mpr ?_
    exact dedupFirst_keys_nodup _
  intro i
  exact List.nodup_iff_count_le_one.mp hnodup i

/-- A concrete audit record: admin-1 changes user-7's role. -/
def auditWitnessRecA : AuditRecord :=
  { eventType := "user.role_changed", actorId := "admin-1",
    actorEmail := "admin@example.com", timestamp := 10,
    targetId := some "user-7", targetEmail := some "u7@example.com",
    changes := some [("role", { old := some "customer", new := some "partner" })],
    reason := some "approved upgrade request", metadata := none }

/-- A concrete audit record: user-7 logs in. -/
def auditWitnessRecB : AuditRecord :=
  { eventType := "auth.login_success", actorId := "user-7",
    actorEmail := "u7@example.com", timestamp := 20,
    targetId := none, targetEmail := none,
    changes := none, reason := none, metadata := none }

def auditWitnessState : SysState :=
  { users := [], audit := [(0, auditWitnessRecA), (1, auditWitnessRecB)],
    auditNext := 2 }

/-- Witness for C7, at a store where user-7 is target of one record and actor
of another. -/
theorem get_user_audit_history_eq_spec_witness :
    getUserAuditHistory auditWitnessState "user-7" 50 true true
      = auditHistorySpec auditWitnessState "user-7" 50 ∧
    ((getUserAuditHistory auditWitnessState "user-7" 50 true true).map
        Prod.fst).count 0 ≤ 1 :=
  ⟨(get_user_audit_history_eq_spec auditWitnessState "user-7" 50 (by decide)).1,
   (get_user_audit_history_eq_spec auditWitnessState "user-7" 50 (by decide)).2 0⟩

theorem lookupN_append_fresh {α : Type} (n : Nat) (v : α) :
    ∀ l : List (Nat × α), (∀ k ∈ l.map Prod.fst, k ≠ n) →
      lookupN n (l ++ [(n, v)]) = some v := by
  intro l
  induction l with
  | nil => intro _; simp [lookupN]
  | cons x xs ih =>
    intro h
    obtain ⟨k1, v1⟩ := x
    have hx : k1 ≠ n := h k1 (by simp)
    simp only [List.cons_append, lookupN, if_neg hx]
    exact ih (fun k hk => h k (by simp at hk ⊢; exact Or.inr hk))

/-- C8 (amended): reading back the id returned by `log_event` yields a record
whose required fields equal the supplied values and whose optional fields are
present exactly when the supplied value was truthy (non-empty); fields not
supplied, or supplied empty, are entirely absent rather than null.  The
hypothesis says the store's existing ids are below the next fresh id. -/
theorem log_event_roundtrip (st : SysState) (now : Nat)
    (eventType actorId actorEmail : String)
    (targetId targetEmail : Option String)
    (changes : Option (List (String × ChangeEntry)))
    (reason : Option String) (metadata : Option (List (String × String)))
    (hfresh : ∀ k ∈ st.audit.map Prod.fst, k < st.auditNext) :
    getAuditLogById
        (logEvent st now eventType actorId actorEmail targetId targetEmail
          changes reason metadata).2
        (logEvent st now eventType actorId actorEmail targetId targetEmail
          changes reason metadata).1
      = some
        { eventType := eventType, actorId := actorId, actorEmail := actorEmail,
          timestamp := now,
          targetId := if truthyStr targetId then targetId else none,
          targetEmail := if truthyStr targetEmail then targetEmail else none,
          changes := if truthyList changes then changes else none,
          reason := if truthyStr reason then reason else none,
          metadata := if truthyList metadata then metadata else none } := by
  unfold logEvent getAuditLogById
  exact lookupN_append_fresh st.auditNext _ st.audit
    (fun k hk => Nat.ne_of_lt (hfresh k hk))

/-- Witness for C8's amended claim: a fully supplied record reads back
field-for-field. -/
theorem log_event_roundtrip_witness :
    getAuditLogById
        (logEvent ⟨[], [], 0⟩ 7 "user.role_changed" "admin-1"
          "admin@example.com" (some "user-7") (some "u7@example.com")
          (some [("role", { old := some "customer", new := some "partner" })])
          (some "approved upgrade request") none).2
        (logEvent ⟨[], [], 0⟩ 7 "user.role_changed" "admin-1"
          "admin@example.com" (some "user-7") (some "u7@example.com")
          (some [("role", { old := some "customer", new := some "partner" })])
          (some "approved upgrade request") none).1
      = some
        { eventType := "user.role_changed", actorId := "admin-1",
          actorEmail := "admin@example.com", timestamp := 7,
          targetId := some "user-7", targetEmail := some "u7@example.com",
          changes := some [("role", { old := some "customer", new := some "partner" })],
          reason := some "approved upgrade request", metadata := none } := by
  have h := log_event_roundtrip ⟨[], [], 0⟩ 7 "user.role_changed" "admin-1"
    "admin@example.com" (some "user-7") (some "u7@example.com")
    (some [("role", { old := some "customer", new := some "partner" })])
    (some "approved upgrade request") none (by simp)
  simpa using h

/-! ## Admin user service (collection "gc-users")

`AdminUserService.change_user_role`, `deactivate_user` and `update_user`
raise `ValueError` for guard violations; every raise occurs before the
document update and the audit write, so an `Except.error` result corresponds
to an unchanged store. -/

def VALID_ROLES : List String := ["customer", "partner", "support", "admin"]

def VALID_STATUSES : List String := ["active", "inactive", "suspended"]

def EVENT_USER_ROLE_CHANGED : String := "user.role_changed"

def EVENT_USER_DEACTIVATED : String := "user.deactivated"

def EVENT_USER_REACTIVATED : String := "user.reactivated"

def EVENT_USER_UPDATED : String := "user.updated"

/-- Whether the modelled service call raised a `ValueError`. -/
def raisedB : Except String SysState → Bool
  | .error _ => true
  | .ok _ => false

/-- Embeds Python's `str.strip()`: drop leading and trailing whitespace. -/
def pyStrip (s : String) : String :=
  String.mk
    (((s.toList.dropWhile Char.isWhitespace).reverse.dropWhile
        Char.isWhitespace).reverse)

/-- Embeds `AdminUserService.change_user_role`: the five guards in source
order, then the role-field update and a single `user.role_changed` audit
event. -/
def changeUserRole (st : SysState) (now : Nat)
    (userId newRole adminId adminEmail reason : String) : Except String SysState :=
  if ¬ newRole ∈ VALID_ROLES then
    .error ("Invalid role: " ++ newRole)
  else if reason = "" ∨ (pyStrip reason).length < 10 then
    .error "Reason must be at least 10 characters long"
  else if userId = adminId then
    .error "Cannot change your own role"
  else
    match lookupA userId st.users with
    | none => .error ("User not found: " ++ userId)
    | some u =>
      if u.role = some newRole then
        .error ("User already has role: " ++ newRole)
      else
        let u2 : User :=
          { u with
            role := some newRole
            previousRole := u.role
            roleChangedAt := some now
            roleChangedBy := some adminId
            updatedAt := some now }
        let st2 := { st with users := setA userId u2 st.users }
        .ok (logEvent st2 now EVENT_USER_ROLE_CHANGED adminId adminEmail
          (some userId) u.email
          (some [("role", { old := u.role, new := some newRole })])
          (some reason) none).2

/-- Embeds `AdminUserService.deactivate_user`: not-found, other-admin, self
and already-inactive guards in source order, then the status update and a
single `user.deactivated` audit event. -/
def deactivateUser (st : SysState) (now : Nat)
    (userId adminId adminEmail : String) (reason : Option String) :
    Except String SysState :=
  match lookupA userId st.users with
  | none => .error ("User not found: " ++ userId)
  | some u =>
    if u.role = some "admin" ∧ userId ≠ adminId then
      .error "Cannot deactivate another admin user"
    else if userId = adminId then
      .error "Cannot deactivate your own account"
    else
      let oldStatus := u.status.getD "active"
      if oldStatus = "inactive" then
        .error "User is already inactive"
      else
        let u2 : User :=
          { u with
            status := some "inactive"
            statusChangedAt := some now
            statusChangedBy := some adminId
            updatedAt := some now }
        let st2 := { st with users := setA userId u2 st.users }
        .ok (logEvent st2 now EVENT_USER_DEACTIVATED adminId adminEmail
          (some userId) u.email
          (some [("status", { old := some oldStatus, new := some "inactive" })])
          reason none).2

/-- Embeds `name.strip().split(None, 1)` followed by the first/last
extraction: first maximal run of non-whitespace, then the remainder after the
separating whitespace run. -/
def splitNameParts (s : String) : String × String :=
  let cs := (pyStrip s).toList
  let first := cs.takeWhile (fun c => !c.isWhitespace)
  let rest := (cs.dropWhile (fun c => !c.isWhitespace)).dropWhile (fun c => c.isWhitespace)
  (String.mk first, String.mk rest)

/-- Embeds `validate_indian_mobile` from app/core/validators.py. -/
def validateIndianMobile (mobile : String) : Except String String :=
  if mobile = "" ∨ pyStrip mobile = "" then .ok ""
  else
    let cleaned := (pyStrip mobile).toList.filter
      (fun c => !(c = ' ' || c = '-' || c = '(' || c = ')' || c = '+'))
    let number : Option (List Char) :=
      if cleaned.take 2 = ['9', '1'] ∧ cleaned.length = 12 then some (cleaned.drop 2)
      else if cleaned.length = 10 then some cleaned
      else none
    match number with
    | none => .error "Mobile number must be 10 digits (with or without +91 country code)"
    | some num =>
      if ¬ (num.take 1 = ['6'] ∨ num.take 1 = ['7'] ∨ num.take 1 = ['8'] ∨
            num.take 1 = ['9']) then
        .error "Indian mobile number must start with 6, 7, 8, or 9"
      else if num.length ≠ 10 ∨ ¬ num.all Char.isDigit then
        .error "Mobile number must be exactly 10 digits"
      else .ok ("+91" ++ String.mk num)

/-- Embeds `role is not None and role != user_data.get("role")`. -/
def roleChangingB (u : User) (role : Option String) : Bool :=
  match role with
  | none => false
  | some r => !(u.role == some r)

/-- Embeds `status is not None and status != user_data.get("status")`. -/
def statusChangingB (u : User) (status : Option String) : Bool :=
  match status with
  | none => false
  | some s => !(u.status == some s)

/-- Embeds `not reason or len(reason.strip()) < 10`. -/
def reasonMissingB (reason : Option String) : Bool :=
  match reason with
  | none => true
  | some r => r == "" || (pyStrip r).length < 10

/-- The name block of `update_user`: split the supplied name, insist on a
first name, and report a change entry when first or last name differ from the
stored values. -/
def nameStep (u : User) : Option String →
    Except String (Option (String × String × ChangeEntry))
  | none => .ok none
  | some n =>
    let parts := splitNameParts n
    if parts.1 = "" then .error "First name is required"
    else
      let oldFirst := u.firstName.getD ""
      let oldLast := u.lastName.getD ""
      if parts.1 = oldFirst ∧ parts.2 = oldLast then .ok none
      else
        .ok (some (parts.1, parts.2,
          { old := some (pyStrip (oldFirst ++ " " ++ oldLast)),
            new := some (pyStrip (parts.1 ++ " " ++ parts.2)) }))

/-- The mobile block of `update_user`: normalize (empty string clears to
null), compare against the stored value (`.get("mobile", "")`), and report a
change entry with `old_mobile or None`. -/
def mobileStep (u : User) : Option String →
    Except String (Option (Option String × ChangeEntry))
  | none => .ok none
  | some m =>
    let oldMobile : Option String :=
      match u.mobile with
      | none => some ""
      | some v => v
    match (if m = "" then Except.ok none
           else match validateIndianMobile m with
                | .ok s => Except.ok (some s)
                | .error e => Except.error e :
           Except String (Option String)) with
    | .error e => .error e
    | .ok normalized =>
      if normalized = oldMobile then .ok none
      else
        .ok (some (normalized,
          { old := match oldMobile with
              | none => none
              | some s => if s = "" then none else some s,
            new := normalized }))

/-- The `changes` dict accumulated by `update_user`, in its insertion order
name, mobile, role, status. -/
def changesOf (nameChange : Option (String × String × ChangeEntry))
    (mobileChange : Option (Option String × ChangeEntry)) (u : User)
    (role status : Option String) (roleChanging statusChanging : Bool) :
    List (String × ChangeEntry) :=
  (match nameChange with | some nc => [("name", nc.2.2)] | none => []) ++
  (match mobileChange with | some mc => [("mobile", mc.2)] | none => []) ++
  (if roleChanging then [("role", { old := u.role, new := role })] else []) ++
  (if statusChanging then
    [("status", { old := some (u.status.getD "active"), new := status })]
   else [])

/-- The user document after the `updates` dict of `update_user` is applied. -/
def applyUserUpdates (u : User) (now : Nat) (adminId : String)
    (nameChange : Option (String × String × ChangeEntry))
    (mobileChange : Option (Option String × ChangeEntry))
    (role status : Option String) (roleChanging statusChanging : Bool) : User :=
  { u with
    updatedAt := some now
    firstName := match nameChange with | some nc => some nc.1 | none => u.firstName
    lastName := match nameChange with | some nc => some nc.2.1 | none => u.lastName
    mobile := match mobileChange with | some mc => some mc.1 | none => u.mobile
    role := if roleChanging then role else u.role
    previousRole := if roleChanging then u.role else u.previousRole
    roleChangedAt := if roleChanging then some now else u.roleChangedAt
    roleChangedBy := if roleChanging then some adminId else u.roleChangedBy
    status := if statusChanging then status else u.status
    statusChangedAt := if statusChanging then some now else u.statusChangedAt
    statusChangedBy := if statusChanging then some adminId else u.statusChangedBy }

/-- The event type chosen by `update_user`: the generic `user.updated` when
both role and status changed, else the specific type. -/
def updateEventType (roleChanging statusChanging : Bool) (status : Option String) :
    String :=
  if roleChanging && statusChanging then EVENT_USER_UPDATED
  else if roleChanging then EVENT_USER_ROLE_CHANGED
  else if statusChanging then
    if status == some "inactive" then EVENT_USER_DEACTIVATED
    else EVENT_USER_REACTIVATED
  else EVENT_USER_UPDATED

/-- The audit reason string built by `update_user`. -/
def updateAuditReason (roleChanging statusChanging : Bool)
    (status reason : Option String) : String :=
  let base := match reason with
    | none => "User details updated by admin"
    | some r => if r = "" then "User details updated by admin" else pyStrip r
  if roleChanging && statusChanging then "Role and status changed: " ++ base
  else if roleChanging then "Role changed: " ++ base
  else if statusChanging then
    if status == some "inactive" then "User deactivated: " ++ base
    else "User reactivated: " ++ base
  else base

/-- Embeds `AdminUserService.update_user`: guards and field blocks in source
order, the no-change early return, one document update and one audit
event. -/
def updateUser (st : SysState) (now : Nat) (userId adminId adminEmail : String)
    (name mobile role status reason : Option String) : Except String SysState :=
  match lookupA userId st.users with
  | none => .error ("User not found: " ++ userId)
  | some u =>
    let roleChanging := roleChangingB u role
    let statusChanging := statusChangingB u status
    if (roleChanging || statusChanging) && reasonMissingB reason then
      .error "Reason is required (minimum 10 characters) when changing role or status"
    else
      match nameStep u name with
      | .error e => .error e
      | .ok nameChange =>
        match mobileStep u mobile with
        | .error e => .error e
        | .ok mobileChange =>
          if roleChanging && !(VALID_ROLES.contains (role.getD "")) then
            .error ("Invalid role: " ++ role.getD "")
          else if roleChanging && (userId == adminId) then
            .error "Cannot change your own role"
          else if statusChanging && !(VALID_STATUSES.contains (status.getD "")) then
            .error ("Invalid status: " ++ status.getD "")
          else if statusChanging && (status == some "inactive") &&
              (u.role == some "admin") && !(userId == adminId) then
            .error "Cannot deactivate another admin user"
          else if statusChanging && (status == some "inactive") &&
              (userId == adminId) then
            .error "Cannot deactivate your own account"
          else
            let changes := changesOf nameChange mobileChange u role status
              roleChanging statusChanging
            if changes.isEmpty then .ok st
            else
              let u2 := applyUserUpdates u now adminId nameChange mobileChange
                role status roleChanging statusChanging
              let st2 := { st with users := setA userId u2 st.users }
              .ok (logEvent st2 now
                (updateEventType roleChanging statusChanging status)
                adminId adminEmail (some userId) u.email (some changes)
                (some (updateAuditReason roleChanging statusChanging status reason))
                none).2

/-- Counterexample for C8 as frozen: a call that supplies `target_id` as the
empty string gets a stored record with no `targetId` at all, so the read-back
value is not identical to the supplied one. -/
theorem log_event_roundtrip_counterexample :
    (getAuditLogById
        (logEvent ⟨[], [], 0⟩ 5 "user.updated" "admin-1" "admin@example.com"
          (some "") none none none none).2
        (logEvent ⟨[], [], 0⟩ 5 "user.updated" "admin-1" "admin@example.com"
          (some "") none none none none).1).map AuditRecord.targetId
      = some none ∧
    some (none : Option String) ≠ some (some "") := by
  constructor
  · decide
  · decide

/-- C4: `change_user_role` raises exactly when the new role is invalid, the
reason is empty or trims to fewer than 10 characters, the caller targets
itself, the target does not exist, or the target already has the new role;
in the embedding every raise precedes the document update and the audit
write, so an error leaves the store untouched. -/
theorem change_user_role_raises_iff (st : SysState) (now : Nat)
    (userId newRole adminId adminEmail reason : String) :
    raisedB (changeUserRole st now userId newRole adminId adminEmail reason) = true ↔
      (newRole ∉ VALID_ROLES ∨ reason = "" ∨ (pyStrip reason).length < 10 ∨
       userId = adminId ∨ lookupA userId st.users = none ∨
       ∃ u, lookupA userId st.users = some u ∧ u.role = some newRole) := by
  unfold changeUserRole
  by_cases h1 : newRole ∈ VALID_ROLES
  · rw [if_neg (not_not_intro h1)]
    by_cases h2 : reason = "" ∨ (pyStrip reason).length < 10
    · rw [if_pos h2]
      refine iff_of_true rfl ?_
      rcases h2 with h | h
      · exact Or.inr (Or.inl h)
      · exact Or.inr (Or.inr (Or.inl h))
    · rw [if_neg h2]
      by_cases h3 : userId = adminId
      · rw [if_pos h3]
        exact iff_of_true rfl (Or.inr (Or.inr (Or.inr (Or.inl h3))))
      · rw [if_neg h3]
        cases hu : lookupA userId st.users with
        | none =>
          exact iff_of_true rfl (Or.inr (Or.inr (Or.inr (Or.inr (Or.inl rfl)))))
        | some u =>
          dsimp only
          by_cases h5 : u.role = some newRole
          · rw [if_pos h5]
            exact iff_of_true rfl
              (Or.inr (Or.inr (Or.inr (Or.inr (Or.inr ⟨u, rfl, h5⟩)))))
          · rw [if_neg h5]
            refine iff_of_false (by simp [raisedB]) ?_
            intro hcon
            rcases hcon with h | h | h | h | h | ⟨u2, hu2, hr2⟩
            · exact h h1
            · exact h2 (Or.inl h)
            · exact h2 (Or.inr h)
            · exact h3 h
            · cases h
            · cases hu2
              exact h5 hr2
  · rw [if_pos h1]
    exact iff_of_true rfl (Or.inl h1)

/-- C3: a `change_user_role` call whose guards all pass persists the new
role, the previous role and the change-tracking fields, and appends exactly
one `user.role_changed` audit event carrying the role change, the reason and
the actor and target identities. -/
theorem change_user_role_success (st : SysState) (now : Nat)
    (userId newRole adminId adminEmail reason : String) (u : User) (em : String)
    (hrole : newRole ∈ VALID_ROLES)
    (hreason : 10 ≤ (pyStrip reason).length)
    (hself : userId ≠ adminId)
    (huser : lookupA userId st.users = some u)
    (hchange : u.role ≠ some newRole)
    (hid : userId ≠ "")
    (hemail : u.email = some em) (hem : em ≠ "") :
    changeUserRole st now userId newRole adminId adminEmail reason
      = .ok
        { users := setA userId
            { u with
              role := some newRole
              previousRole := u.role
              roleChangedAt := some now
              roleChangedBy := some adminId
              updatedAt := some now } st.users
          audit := st.audit ++
            [(st.auditNext,
              { eventType := EVENT_USER_ROLE_CHANGED, actorId := adminId,
                actorEmail := adminEmail, timestamp := now,
                targetId := some userId, targetEmail := some em,
                changes := some [("role", { old := u.role, new := some newRole })],
                reason := some reason, metadata := none })]
          auditNext := st.auditNext + 1 } ∧
    lookupA userId
        (setA userId
          { u with
            role := some newRole
            previousRole := u.role
            roleChangedAt := some now
            roleChangedBy := some adminId
            updatedAt := some now } st.users)
      = some
        { u with
          role := some newRole
          previousRole := u.role
          roleChangedAt := some now
          roleChangedBy := some adminId
          updatedAt := some now } := by
  have hne : reason ≠ "" := by
    intro h
    rw [h] at hreason
    have h0 : (pyStrip "").length = 0 := by decide
    omega
  refine ⟨?_, lookupA_setA_self _ _ _⟩
  unfold changeUserRole
  rw [if_neg (not_not_intro hrole)]
  rw [if_neg (by push_neg; exact ⟨hne, by omega⟩)]
  rw [if_neg hself]
  rw [huser]
  dsimp only
  rw [if_neg hchange]
  unfold logEvent
  have ht1 : truthyStr (some userId) = true := by
    simp [truthyStr, beq_eq_false_iff_ne.mpr hid]
  have ht2 : truthyStr (some reason) = true := by
    simp [truthyStr, beq_eq_false_iff_ne.mpr hne]
  have ht3 : truthyStr (some em) = true := by
    simp [truthyStr, beq_eq_false_iff_ne.mpr hem]
  simp [ht1, ht2, ht3, truthyList, hemail]

/-- Concrete user for the C3 witness: user-7, a customer. -/
def c3User : User :=
  { email := some "u7@example.com", firstName := some "Uma", lastName := some "Seven",
    mobile := none, role := some "customer", status := some "active",
    previousRole := none, roleChangedAt := none, roleChangedBy := none,
    statusChangedAt := none, statusChangedBy := none, updatedAt := none }

def c3State : SysState :=
  { users := [("user-7", c3User)], audit := [], auditNext := 0 }

/-- Witness for C3: admin-1 promotes user-7 from customer to partner. -/
theorem change_user_role_success_witness :
    changeUserRole c3State 7 "user-7" "partner" "admin-1" "admin@example.com"
        "approved upgrade request"
      = .ok
        { users := setA "user-7"
            { c3User with
              role := some "partner"
              previousRole := c3User.role
              roleChangedAt := some 7
              roleChangedBy := some "admin-1"
              updatedAt := some 7 } c3State.users
          audit := c3State.audit ++
            [(c3State.auditNext,
              { eventType := EVENT_USER_ROLE_CHANGED, actorId := "admin-1",
                actorEmail := "admin@example.com", timestamp := 7,
                targetId := some "user-7", targetEmail := some "u7@example.com",
                changes := some
                  [("role", { old := c3User.role, new := some "partner" })],
                reason := some "approved upgrade request", metadata := none })]
          auditNext := c3State.auditNext + 1 } ∧
    lookupA "user-7"
        (setA "user-7"
          { c3User with
            role := some "partner"
            previousRole := c3User.role
            roleChangedAt := some 7
            roleChangedBy := some "admin-1"
            updatedAt := some 7 } c3State.users)
      = some
        { c3User with
          role := some "partner"
          previousRole := c3User.role
          roleChangedAt := some 7
          roleChangedBy := some "admin-1"
          updatedAt := some 7 } :=
  change_user_role_success c3State 7 "user-7" "partner" "admin-1"
    "admin@example.com" "approved upgrade request" c3User "u7@example.com"
    (by decide) (by decide) (by decide) (by decide) (by decide) (by decide)
    (by decide) (by decide)

/-- C5: for an existing target, `deactivate_user` raises when the target is
an admin and the caller is someone else, and raises on self-deactivation
whatever the role; hence it never turns any admin account inactive (an error
result leaves the store untouched, every raise preceding the write). -/
theorem deactivate_user_admin_protected (st : SysState) (now : Nat)
    (userId adminId adminEmail : String) (reason : Option String) (u : User)
    (huser : lookupA userId st.users = some u) :
    (u.role = some "admin" →
      raisedB (deactivateUser st now userId adminId adminEmail reason) = true) ∧
    (userId = adminId →
      raisedB (deactivateUser st now userId adminId adminEmail reason) = true) := by
  unfold deactivateUser
  rw [huser]
  dsimp only
  constructor
  · intro hadm
    by_cases hsel : userId = adminId
    · rw [if_neg (fun hcon => hcon.2 hsel), if_pos hsel]
      rfl
    · rw [if_pos ⟨hadm, hsel⟩]
      rfl
  · intro hsel
    rw [if_neg (fun hcon => hcon.2 hsel), if_pos hsel]
    rfl

/-- Concrete second admin for the C5 witness. -/
def c5Admin : User :=
  { email := some "a2@example.com", firstName := some "Ana", lastName := some "Two",
    mobile := none, role := some "admin", status := some "active",
    previousRole := none, roleChangedAt := none, roleChangedBy := none,
    statusChangedAt := none, statusChangedBy := none, updatedAt := none }

def c5State : SysState :=
  { users := [("admin-2", c5Admin)], audit := [], auditNext := 0 }

/-- Witness for C5: admin-1 cannot deactivate admin-2. -/
theorem deactivate_user_admin_protected_witness :
    raisedB (deactivateUser c5State 3 "admin-2" "admin-1" "a1@example.com" none)
      = true :=
  (deactivate_user_admin_protected c5State 3 "admin-2" "admin-1" "a1@example.com"
    none c5Admin (by decide)).1 (by decide)

theorem update_user_status_only_success (st : SysState) (now : Nat)
    (userId adminId adminEmail s r : String) (u : User)
    (huser : lookupA userId st.users = some u)
    (hvalid : s ∈ VALID_STATUSES)
    (hninact : s ≠ "inactive")
    (hchanging : u.status ≠ some s)
    (hreason : 10 ≤ (pyStrip r).length) :
    (updateUser st now userId adminId adminEmail none none none (some s)
        (some r)).toOption.map (fun st2 => lookupA userId st2.users)
      = some (some
          { u with
            status := some s
            statusChangedAt := some now
            statusChangedBy := some adminId
            updatedAt := some now }) := by
  have hr0 : r ≠ "" := by
    intro h
    rw [h] at hreason
    have h0 : (pyStrip "").length = 0 := by decide
    omega
  have hsc : (u.status == some s) = false := beq_eq_false_iff_ne.mpr hchanging
  have hni : ((some s : Option String) == some "inactive") = false :=
    beq_eq_false_iff_ne.mpr (fun h => hninact (Option.some.inj h))
  have hcont : VALID_STATUSES.contains s = true := List.elem_iff.mpr hvalid
  have hrm : reasonMissingB (some r) = false := by
    simp [reasonMissingB, beq_eq_false_iff_ne.mpr hr0]
    omega
  unfold updateUser
  rw [huser]
  dsimp only [roleChangingB, statusChangingB, nameStep, mobileStep, Option.getD]
  rw [hsc, hrm, hcont, hni]
  simp [changesOf, applyUserUpdates, logEvent, lookupA_setA_self]
  exact ⟨_, rfl, by rw [lookupA_setA_self]⟩

/-- C9: the admin-protection and self-protection guards of `update_user`
fire only for the literal status "inactive": suspending another admin with a
long enough reason succeeds and persists status "suspended", and so does a
self-suspension. -/
theorem update_user_suspend_not_guarded :
    (∀ st : SysState, ∀ now : Nat, ∀ userId adminId adminEmail r : String,
     ∀ u : User,
       lookupA userId st.users = some u → u.role = some "admin" →
       userId ≠ adminId → 10 ≤ (pyStrip r).length →
       u.status ≠ some "suspended" →
       (updateUser st now userId adminId adminEmail none none none
           (some "suspended") (some r)).toOption.map
             (fun st2 => lookupA userId st2.users)
         = some (some
             { u with
               status := some "suspended"
               statusChangedAt := some now
               statusChangedBy := some adminId
               updatedAt := some now })) ∧
    (∀ st : SysState, ∀ now : Nat, ∀ adminId adminEmail r : String, ∀ u : User,
       lookupA adminId st.users = some u → 10 ≤ (pyStrip r).length →
       u.status ≠ some "suspended" →
       (updateUser st now adminId adminId adminEmail none none none
           (some "suspended") (some r)).toOption.map
             (fun st2 => lookupA adminId st2.users)
         = some (some
             { u with
               status := some "suspended"
               statusChangedAt := some now
               statusChangedBy := some adminId
               updatedAt := some now })) := by
  constructor
  · intro st now userId adminId adminEmail r u huser _ _ hreason hst
    exact update_user_status_only_success st now userId adminId adminEmail
      "suspended" r u huser (by decide) (by decide) hst hreason
  · intro st now adminId adminEmail r u huser hreason hst
    exact update_user_status_only_success st now adminId adminId adminEmail
      "suspended" r u huser (by decide) (by decide) hst hreason

/-- Concrete second admin for the C9 witness. -/
def c9Admin : User :=
  { email := some "a9@example.com", firstName := some "Ari", lastName := some "Nine",
    mobile := none, role := some "admin", status := some "active",
    previousRole := none, roleChangedAt := none, roleChangedBy := none,
    statusChangedAt := none, statusChangedBy := none, updatedAt := none }

def c9State : SysState :=
  { users := [("admin-9", c9Admin)], audit := [], auditNext := 0 }

/-- Witness for C9: admin-1 suspends admin-9, which the guards allow. -/
theorem update_user_suspend_not_guarded_witness :
    (updateUser c9State 9 "admin-9" "admin-1" "a1@example.com" none none none
        (some "suspended") (some "security incident review")).toOption.map
          (fun st2 => lookupA "admin-9" st2.users)
      = some (some
          { c9Admin with
            status := some "suspended"
            statusChangedAt := some 9
            statusChangedBy := some "admin-1"
            updatedAt := some 9 }) :=
  update_user_suspend_not_guarded.1 c9State 9 "admin-9" "admin-1"
    "a1@example.com" "security incident review" c9Admin (by decide) (by decide)
    (by decide) (by decide) (by decide)

theorem updateEventType_eq_rule (rc sc : Bool) (status : Option String)
    (h : (rc || sc) = true) :
    updateEventType rc sc status =
      (if rc && sc then EVENT_USER_UPDATED
       else if rc then EVENT_USER_ROLE_CHANGED
       else if status == some "inactive" then EVENT_USER_DEACTIVATED
       else EVENT_USER_REACTIVATED) := by
  cases rc <;> cases sc <;> simp_all [updateEventType]

theorem changesOf_truthy (nc : Option (String × String × ChangeEntry))
    (mc : Option (Option String × ChangeEntry)) (u : User)
    (role status : Option String) {rc sc : Bool} (h : (rc || sc) = true) :
    truthyList (some (changesOf nc mc u role status rc sc)) = true := by
  cases rc <;> cases sc <;> simp_all [changesOf, truthyList]

/-- C2 (amended): an `update_user` call in which role and/or status actually
changed and which succeeds appends exactly one audit record; that record's
single changes map holds all changed fields (name and mobile included), and
its event type is `user.role_changed` when only the role changed,
`user.deactivated`/`user.reactivated` when only the status changed (by
whether the new status is "inactive"), and the generic `user.updated` when
both role and status changed. -/
theorem update_user_role_status_single_record (st : SysState) (now : Nat)
    (userId adminId adminEmail : String)
    (name mobile role status reason : Option String) (u : User) (st2 : SysState)
    (nameChange : Option (String × String × ChangeEntry))
    (mobileChange : Option (Option String × ChangeEntry))
    (huser : lookupA userId st.users = some u)
    (hns : nameStep u name = .ok nameChange)
    (hms : mobileStep u mobile = .ok mobileChange)
    (hchanged : (roleChangingB u role || statusChangingB u status) = true)
    (hok : updateUser st now userId adminId adminEmail name mobile role status
        reason = .ok st2) :
    st2.audit = st.audit ++
      [(st.auditNext,
        { eventType :=
            if roleChangingB u role && statusChangingB u status then
              EVENT_USER_UPDATED
            else if roleChangingB u role then EVENT_USER_ROLE_CHANGED
            else if status == some "inactive" then EVENT_USER_DEACTIVATED
            else EVENT_USER_REACTIVATED
          actorId := adminId
          actorEmail := adminEmail
          timestamp := now
          targetId := if truthyStr (some userId) then some userId else none
          targetEmail := if truthyStr u.email then u.email else none
          changes := some (changesOf nameChange mobileChange u role status
            (roleChangingB u role) (statusChangingB u status))
          reason := if truthyStr (some (updateAuditReason (roleChangingB u role)
              (statusChangingB u status) status reason)) then
              some (updateAuditReason (roleChangingB u role)
                (statusChangingB u status) status reason)
            else none
          metadata := none })] ∧
    st2.auditNext = st.auditNext + 1 := by
  unfold updateUser at hok
  rw [huser] at hok
  dsimp only at hok
  rw [hns] at hok
  dsimp only at hok
  rw [hms] at hok
  dsimp only at hok
  split at hok
  · exact absurd hok (by simp)
  · split at hok
    · exact absurd hok (by simp)
    · split at hok
      · exact absurd hok (by simp)
      · split at hok
        · exact absurd hok (by simp)
        · split at hok
          · exact absurd hok (by simp)
          · split at hok
            · exact absurd hok (by simp)
            · split at hok
              · exfalso
                rename_i hemp
                have h2 := changesOf_truthy nameChange mobileChange u role
                  status hchanged
                simp [truthyList, hemp] at h2
              · injection hok with h2
                subst h2
                refine ⟨?_, rfl⟩
                simp [logEvent, updateEventType_eq_rule _ _ status hchanged,
                  changesOf_truthy nameChange mobileChange u role status hchanged]

/-- Concrete customer for the C2 counterexample and witness. -/
def c2User : User :=
  { email := some "u9@example.com", firstName := some "Uma", lastName := some "Nine",
    mobile := none, role := some "customer", status := some "active",
    previousRole := none, roleChangedAt := none, roleChangedBy := none,
    statusChangedAt := none, statusChangedBy := none, updatedAt := none }

def c2State : SysState :=
  { users := [("user-9", c2User)], audit := [], auditNext := 0 }

/-- Counterexample for C2 as frozen: an `update_user` call changing both role
and status writes its single audit record with the generic `user.updated`
event type, not one of the specific types. -/
theorem update_user_both_changed_generic_type :
    roleChangingB c2User (some "partner") = true ∧
    statusChangingB c2User (some "suspended") = true ∧
    (updateUser c2State 50 "user-9" "admin-1" "admin@example.com" none none
        (some "partner") (some "suspended")
        (some "routine operations cleanup")).toOption.map
          (fun st2 => st2.audit.map (fun p => p.2.eventType))
      = some [EVENT_USER_UPDATED] ∧
    EVENT_USER_UPDATED ≠ EVENT_USER_ROLE_CHANGED ∧
    EVENT_USER_UPDATED ≠ EVENT_USER_DEACTIVATED ∧
    EVENT_USER_UPDATED ≠ EVENT_USER_REACTIVATED :=
  ⟨by decide, by decide, by decide, by decide, by decide, by decide⟩

/-- The state produced by the C2 witness call. -/
def c2StateAfter : SysState :=
  { users := [("user-9",
      { c2User with
        role := some "partner"
        status := some "suspended"
        previousRole := some "customer"
        roleChangedAt := some 50
        roleChangedBy := some "admin-1"
        statusChangedAt := some 50
        statusChangedBy := some "admin-1"
        updatedAt := some 50 })],
    audit := [(0,
      { eventType := "user.updated", actorId := "admin-1",
        actorEmail := "admin@example.com", timestamp := 50,
        targetId := some "user-9", targetEmail := some "u9@example.com",
        changes := some
          [("role", { old := some "customer", new := some "partner" }),
           ("status", { old := some "active", new := some "suspended" })],
        reason := some "Role and status changed: routine operations cleanup",
        metadata := none })],
    auditNext := 1 }

/-- Witness for C2's amended claim, at the same call as the counterexample. -/
theorem update_user_role_status_single_record_witness :
    c2StateAfter.audit = c2State.audit ++
      [(c2State.auditNext,
        { eventType :=
            if roleChangingB c2User (some "partner") &&
                statusChangingB c2User (some "suspended") then
              EVENT_USER_UPDATED
            else if roleChangingB c2User (some "partner") then
              EVENT_USER_ROLE_CHANGED
            else if (some "suspended" : Option String) == some "inactive" then
              EVENT_USER_DEACTIVATED
            else EVENT_USER_REACTIVATED
          actorId := "admin-1"
          actorEmail := "admin@example.com"
          timestamp := 50
          targetId := if truthyStr (some "user-9") then some "user-9" else none
          targetEmail := if truthyStr c2User.email then c2User.email else none
          changes := some (changesOf none none c2User (some "partner")
            (some "suspended") (roleChangingB c2User (some "partner"))
            (statusChangingB c2User (some "suspended")))
          reason := if truthyStr (some (updateAuditReason
              (roleChangingB c2User (some "partner"))
              (statusChangingB c2User (some "suspended")) (some "suspended")
              (some "routine operations cleanup"))) then
              some (updateAuditReason (roleChangingB c2User (some "partner"))
                (statusChangingB c2User (some "suspended")) (some "suspended")
                (some "routine operations cleanup"))
            else none
          metadata := none })] ∧
    c2StateAfter.auditNext = c2State.auditNext + 1 :=
  update_user_role_status_single_record c2State 50 "user-9" "admin-1"
    "admin@example.com" none none (some "partner") (some "suspended")
    (some "routine operations cleanup") c2User c2StateAfter none none
    (by decide) rfl rfl (by decide) rfl

end GCPy
